import Mathlib

/-!
Shallow embedding of the quote-request (RFQ) intake pipeline of a storefront
add-on: the in-memory rate limiter, the submission intake action, the public
settings loader, the schema provisioners and the notification email sender.
Remote GraphQL calls are modelled by explicit environments recording each
call's outcome, and the sequences of remote calls an operation performs are
returned as explicit traces.
-/

namespace RFQ

/-- JavaScript truthiness of a nullable string (`null`/`undefined` and the
empty string are falsy). -/
def truthy : Option String → Bool
  | none => false
  | some s => s ≠ ""

/-! ### In-memory rate limiter

From the intake route: `rateLimitMap`, `checkRateLimit`, `cleanupRateLimitMap`.
The JS `Map` is modelled as an association list; `Map.get` is first-match
lookup, `Map.set` replaces in place or appends, `Map.delete` during the sweep
is a filter. `Date.now()` timestamps are naturals (milliseconds). -/

structure RateLimitRecord where
  count : Nat
  resetTime : Nat
  deriving DecidableEq, Repr

abbrev RateLimitMap := List (String × RateLimitRecord)

def RATE_LIMIT_MAX : Nat := 50

def RATE_LIMIT_WINDOW_MS : Nat := 60 * 60 * 1000

/-- `Map.get` on the association list. -/
def mapGet (m : RateLimitMap) (k : String) : Option RateLimitRecord :=
  (m.find? (fun p => p.1 = k)).map Prod.snd

/-- `Map.set`: replace the entry for `k` in place, or append it. -/
def mapSet (m : RateLimitMap) (k : String) (v : RateLimitRecord) : RateLimitMap :=
  match m with
  | [] => [(k, v)]
  | (k', v') :: rest => if k' = k then (k, v) :: rest else (k', v') :: mapSet rest k v

/--
```
function checkRateLimit(email: string): boolean {
  const now = Date.now();
  const record = rateLimitMap.get(email);
  if (!record || now > record.resetTime) {
    rateLimitMap.set(email, { count: 1, resetTime: now + RATE_LIMIT_WINDOW_MS });
    return true;
  }
  if (record.count >= RATE_LIMIT_MAX) return false;
  record.count++;
  return true;
}
```
State-passing version: takes `now` and the map, returns the decision and the
updated map. -/
def checkRateLimit (now : Nat) (email : String) (m : RateLimitMap) :
    Bool × RateLimitMap :=
  match mapGet m email with
  | none => (true, mapSet m email ⟨1, now + RATE_LIMIT_WINDOW_MS⟩)
  | some record =>
    if now > record.resetTime then
      (true, mapSet m email ⟨1, now + RATE_LIMIT_WINDOW_MS⟩)
    else if record.count ≥ RATE_LIMIT_MAX then
      (false, m)
    else
      (true, mapSet m email ⟨record.count + 1, record.resetTime⟩)

/-- The body of the every-100th-call sweep: delete every entry whose window
has expired (`now > value.resetTime`). -/
def sweepExpired (now : Nat) (m : RateLimitMap) : RateLimitMap :=
  m.filter (fun p => !(decide (now > p.2.resetTime)))

/--
```
let cleanupCounter = 0;
function cleanupRateLimitMap() {
  cleanupCounter++;
  if (cleanupCounter % 100 === 0) { ...delete expired entries... }
}
```
State-passing version over `(cleanupCounter, rateLimitMap)`. -/
def cleanupRateLimitMap (now : Nat) (counter : Nat) (m : RateLimitMap) :
    Nat × RateLimitMap :=
  let counter' := counter + 1
  if counter' % 100 = 0 then (counter', sweepExpired now m) else (counter', m)

end RFQ

namespace RFQ

/-! ### Basic lemmas about the association-list map -/

theorem mapGet_mapSet_self (m : RateLimitMap) (k : String) (v : RateLimitRecord) :
    mapGet (mapSet m k v) k = some v := by
  induction m with
  | nil => simp [mapGet, mapSet]
  | cons p rest ih =>
    obtain ⟨k', v'⟩ := p
    by_cases h : k' = k
    · subst h
      simp [mapGet, mapSet]
    · simp only [mapSet, if_neg h]
      simpa [mapGet, List.find?, h] using ih

theorem mapGet_mem (m : RateLimitMap) (k : String) (r : RateLimitRecord)
    (h : mapGet m k = some r) : (k, r) ∈ m := by
  induction m with
  | nil => simp [mapGet] at h
  | cons p rest ih =>
    obtain ⟨k₀, v₀⟩ := p
    by_cases hk : k₀ = k
    · subst hk
      rw [mapGet, List.find?_cons_of_pos _ (by simp)] at h
      have hv : v₀ = r := by simpa using h
      simp [← hv]
    · rw [mapGet, List.find?_cons_of_neg _ (by simp [hk])] at h
      exact List.mem_cons_of_mem _ (ih h)

theorem mem_mapSet (m : RateLimitMap) (k : String) (v : RateLimitRecord)
    (p : String × RateLimitRecord) (h : p ∈ mapSet m k v) :
    p = (k, v) ∨ p ∈ m := by
  induction m with
  | nil => simpa [mapSet] using h
  | cons q rest ih =>
    obtain ⟨k₀, v₀⟩ := q
    by_cases hk : k₀ = k
    · subst hk
      rcases (by simpa [mapSet] using h : p = (k₀, v) ∨ p ∈ rest) with h' | h'
      · exact Or.inl h'
      · exact Or.inr (List.mem_cons_of_mem _ h')
    · rcases (by simpa [mapSet, hk] using h : p = (k₀, v₀) ∨ p ∈ mapSet rest k v) with h' | h'
      · exact Or.inr (by simp [h'])
      · rcases ih h' with h'' | h''
        · exact Or.inl h''
        · exact Or.inr (List.mem_cons_of_mem _ h'')

/-! ### Email format check

The intake route validates `customerEmail` against the regular expression
`/^[^\s@]+@[^\s@]+\.[^\s@]+$/`.  The matcher below implements anchored
backtracking matching of that pattern with two combinators: `plusThen p k`
matches `[p]+` followed by whatever `k` accepts, and `charThen c k` matches
the literal character `c` followed by whatever `k` accepts; the final
continuation `List.isEmpty` is the `$` anchor. -/

/-- The `\s` character class of JavaScript regular expressions. -/
def jsWhitespace (c : Char) : Bool :=
  c.val = 9 || c.val = 10 || c.val = 11 || c.val = 12 || c.val = 13 ||
  c.val = 32 || c.val = 0xa0 || c.val = 0x1680 ||
  (0x2000 ≤ c.val && c.val ≤ 0x200a) ||
  c.val = 0x2028 || c.val = 0x2029 || c.val = 0x202f || c.val = 0x205f ||
  c.val = 0x3000 || c.val = 0xfeff

/-- The character class `[^\s@]` of the intake route's email pattern. -/
def emailSegChar (c : Char) : Bool :=
  !jsWhitespace c && c ≠ '@'

/-- Backtracking matcher for `[p]+` followed by a continuation `k`: consume at
least one `p`-character, then at each point either hand the rest to `k` or
keep consuming. -/
def plusThen (p : Char → Bool) (k : List Char → Bool) : List Char → Bool
  | [] => false
  | c :: rest => p c && (k rest || plusThen p k rest)

/-- Matcher for a literal character followed by a continuation. -/
def charThen (c₀ : Char) (k : List Char → Bool) : List Char → Bool
  | [] => false
  | c :: rest => c = c₀ && k rest

/-- `emailRegex.test(customerEmail)` with
`emailRegex = /^[^\s@]+@[^\s@]+\.[^\s@]+$/`. -/
def emailRegexTest (s : String) : Bool :=
  plusThen emailSegChar (charThen '@' (plusThen emailSegChar
    (charThen '.' (plusThen emailSegChar List.isEmpty)))) s.data

/-- Modelled from the spec: the `^\S+@\S+\.\S+$` shape the spec describes as
"at least one non-whitespace segment before and after `@`, and a dot in the
domain".  Same backtracking matcher, but the segments admit every
non-whitespace character (including `@`). -/
def specEmailShape (s : String) : Bool :=
  plusThen (fun c => !jsWhitespace c) (charThen '@' (plusThen (fun c => !jsWhitespace c)
    (charThen '.' (plusThen (fun c => !jsWhitespace c) List.isEmpty)))) s.data

theorem plusThen_mono (p p' : Char → Bool) (k k' : List Char → Bool)
    (hp : ∀ c, p c = true → p' c = true)
    (hk : ∀ l, k l = true → k' l = true) :
    ∀ l, plusThen p k l = true → plusThen p' k' l = true := by
  intro l
  induction l with
  | nil => simp [plusThen]
  | cons c rest ih =>
    simp only [plusThen, Bool.and_eq_true, Bool.or_eq_true]
    rintro ⟨hc, hrest | hrest⟩
    · exact ⟨hp c hc, Or.inl (hk rest hrest)⟩
    · exact ⟨hp c hc, Or.inr (ih hrest)⟩

theorem charThen_mono (c₀ : Char) (k k' : List Char → Bool)
    (hk : ∀ l, k l = true → k' l = true) :
    ∀ l, charThen c₀ k l = true → charThen c₀ k' l = true := by
  intro l
  cases l with
  | nil => simp [charThen]
  | cons c rest =>
    simp only [charThen, Bool.and_eq_true]
    rintro ⟨hc, hrest⟩
    exact ⟨hc, hk rest hrest⟩

theorem emailSegChar_nonWhitespace (c : Char) (h : emailSegChar c = true) :
    (!jsWhitespace c) = true :=
  (Bool.and_eq_true _ _ |>.mp h).1

/-- Every string the code's email regex accepts also matches the spec's
`^\S+@\S+\.\S+$` shape (the code's segment class is strictly smaller). -/
theorem emailRegexTest_implies_specShape (s : String)
    (h : emailRegexTest s = true) : specEmailShape s = true := by
  refine plusThen_mono _ _ _ _ emailSegChar_nonWhitespace ?_ s.data h
  refine charThen_mono _ _ _ ?_
  refine plusThen_mono _ _ _ _ emailSegChar_nonWhitespace ?_
  refine charThen_mono _ _ _ ?_
  exact plusThen_mono _ _ _ _ emailSegChar_nonWhitespace (fun _ h => h)

end RFQ

namespace RFQ

/-! ### Schema provisioners (`metaobject-setup.server.ts`)

Each remote GraphQL round trip is modelled by an environment field recording
its outcome: `.error` when the call (or the code reacting to it) threw, `.ok`
with the parsed data otherwise.  Each provisioner returns its result together
with the trace of remote calls it issued. -/

/-- One entry of a mutation's `userErrors` array. -/
structure UserError where
  message : String
  code : String
  deriving DecidableEq, Repr

/-- Outcome of one remote round trip: the call threw, or returned data. -/
abbrev Remote (α : Type) := Except Unit α

instance instDecidableEqExcept {ε α : Type} [DecidableEq ε] [DecidableEq α] :
    DecidableEq (Except ε α)
  | .error e, .error e' =>
    decidable_of_iff (e = e') ⟨by rintro rfl; rfl, by intro h; injection h⟩
  | .error _, .ok _ => isFalse (fun h => Except.noConfusion h)
  | .ok _, .error _ => isFalse (fun h => Except.noConfusion h)
  | .ok a, .ok a' =>
    decidable_of_iff (a = a') ⟨by rintro rfl; rfl, by intro h; injection h⟩

/-- Parsed response of `metaobjectDefinitionCreate`: the `userErrors` array
and whether top-level GraphQL `errors` were present. -/
structure DefinitionCreateData where
  userErrors : List UserError
  gqlErrors : Bool
  deriving DecidableEq, Repr

/-- Remote outcomes seen by one `ensureRfq*Type` call: the
`metaobjectDefinitionByType` check (yielding the definition's id, `none`
when the definition is null) and the `metaobjectDefinitionCreate` attempt. -/
structure MetaobjectEnsureEnv where
  checkResult : Remote (Option String)
  createResult : Remote DefinitionCreateData
  deriving DecidableEq, Repr

/-- The two kinds of remote calls a provisioner can issue. -/
inductive ProvisionCall
  | queryDefinition
  | createDefinition
  deriving DecidableEq, Repr

/--
`ensureRfqSubmissionType`: query `metaobjectDefinitionByType`; if the
definition exists (truthy id) return `true` immediately; otherwise create it,
throwing on any `userErrors` or top-level GraphQL errors; the surrounding
`try/catch` logs and rethrows, so every failure surfaces as a throw. -/
def ensureRfqSubmissionType (env : MetaobjectEnsureEnv) :
    Remote Bool × List ProvisionCall :=
  match env.checkResult with
  | .error e => (.error e, [.queryDefinition])
  | .ok idOpt =>
    if truthy idOpt then
      (.ok true, [.queryDefinition])
    else
      match env.createResult with
      | .error e => (.error e, [.queryDefinition, .createDefinition])
      | .ok createData =>
        if createData.userErrors.length > 0 then
          (.error (), [.queryDefinition, .createDefinition])
        else if createData.gqlErrors then
          (.error (), [.queryDefinition, .createDefinition])
        else
          (.ok true, [.queryDefinition, .createDefinition])

/-- `ensureRfqSettingsType`: identical control flow to
`ensureRfqSubmissionType`, for the `rfq_settings` definition. -/
def ensureRfqSettingsType (env : MetaobjectEnsureEnv) :
    Remote Bool × List ProvisionCall :=
  match env.checkResult with
  | .error e => (.error e, [.queryDefinition])
  | .ok idOpt =>
    if truthy idOpt then
      (.ok true, [.queryDefinition])
    else
      match env.createResult with
      | .error e => (.error e, [.queryDefinition, .createDefinition])
      | .ok createData =>
        if createData.userErrors.length > 0 then
          (.error (), [.queryDefinition, .createDefinition])
        else if createData.gqlErrors then
          (.error (), [.queryDefinition, .createDefinition])
        else
          (.ok true, [.queryDefinition, .createDefinition])

/-- Remote outcomes seen by one `ensureProductMetafieldDefinition` call: the
`metafieldDefinitions(first: 1, ...)` check (number of nodes returned) and
the `metafieldDefinitionCreate` attempt (its `userErrors`). -/
structure MetafieldEnsureEnv where
  checkNodes : Remote Nat
  createUserErrors : Remote (List UserError)
  deriving DecidableEq, Repr

/--
`ensureProductMetafieldDefinition`: query for an existing definition; if one
exists return `true`; otherwise create it, returning `false` on `userErrors`
UNLESS some error has code `"TAKEN"` (benign already-exists race, ignored);
the surrounding `try/catch` turns any throw into `false`. -/
def ensureProductMetafieldDefinition (env : MetafieldEnsureEnv) :
    Bool × List ProvisionCall :=
  match env.checkNodes with
  | .error _ => (false, [.queryDefinition])
  | .ok n =>
    if n > 0 then
      (true, [.queryDefinition])
    else
      match env.createUserErrors with
      | .error _ => (false, [.queryDefinition, .createDefinition])
      | .ok errors =>
        if errors.length > 0 && !(errors.any fun e => e.code = "TAKEN") then
          (false, [.queryDefinition, .createDefinition])
        else
          (true, [.queryDefinition, .createDefinition])

/-- Remote-platform semantics for sequential provisioning: the definition
check reports an id exactly when the type is already defined, and creation
against a world where it is absent succeeds (no userErrors, no GraphQL
errors) and brings it into existence. -/
def metaobjectWorldEnv (typeDefined : Bool) : MetaobjectEnsureEnv :=
  { checkResult := .ok (if typeDefined then some "gid://metaobject-definition/1" else none)
  , createResult := .ok ⟨[], false⟩ }

/-! ### Notification email sender (`email.server.ts`, `sendQuoteNotification`) -/

/-- How the dispatch of the notification email went. -/
inductive SenderOutcome
  /-- `RESEND_API_KEY` unset: the composed message is logged instead. -/
  | noApiKey
  /-- `resend.emails.send` resolved with data. -/
  | sent
  /-- `resend.emails.send` resolved with an error value. -/
  | sendError
  /-- the sender (or the body) threw; caught by the function's `try/catch`. -/
  | sendThrew
  deriving DecidableEq, Repr

/-- `sendQuoteNotification` never throws: it returns `true` on success (or
when unconfigured, after logging) and `false` on a sender error or a caught
throw. -/
def sendQuoteNotification : SenderOutcome → Bool
  | .noApiKey => true
  | .sent => true
  | .sendError => false
  | .sendThrew => false

/-! ### Settings fields -/

/-- One `{key, value}` field of a settings metaobject node. -/
structure SettingsField where
  key : String
  value : Option String
  deriving DecidableEq, Repr

/-- `fields.find(f => f.key === k)?.value`. -/
def findFieldValue (fields : List SettingsField) (k : String) : Option String :=
  (fields.find? (fun f => f.key = k)).bind (fun f => f.value)

/-- `getValue(key, defaultValue) = field?.value || defaultValue`. -/
def getValue (fields : List SettingsField) (k dflt : String) : String :=
  match findFieldValue fields k with
  | some v => if v = "" then dflt else v
  | none => dflt

def defaultPhoneNumber : String := "+353 (0)1 8118920"

def defaultFormTitle : String := "Request a Quote"

def defaultFormDescription : String := "Or feel free to call us"

def defaultSuccessMessage : String := "Thank you! We will get back to you shortly."

end RFQ
namespace RFQ

/-! ### Public settings loader (GET handler of the intake route) -/

/-- Response of the settings loader: a 400 `{error: "Shop parameter
required"}`, or a 200 settings JSON. -/
inductive LoaderResponse
  | shopRequired
  | settings (phoneNumber formTitle formDescription successMessage : String)
  deriving DecidableEq, Repr

/-- Remote outcomes seen by one loader run: `unauthenticated.admin(shop)`,
the `ensureRfqSettingsType` environment, and the settings query (first
metaobject node, `none` when there is no settings record). -/
structure LoaderEnv where
  adminAuth : Remote Unit
  ensureEnv : MetaobjectEnsureEnv
  settingsNode : Remote (Option (List SettingsField))
  deriving DecidableEq, Repr

/-- The hardcoded-defaults settings response of the loader's `catch`. -/
def defaultSettingsResponse : LoaderResponse :=
  .settings defaultPhoneNumber defaultFormTitle defaultFormDescription
    defaultSuccessMessage

/--
The GET handler: 400 when the `shop` query parameter is absent or empty;
otherwise authenticate, ensure the settings type, query the settings node and
answer with per-field `getValue` fallbacks; any throw along the way is caught
and answered with the hardcoded defaults. -/
def loader (shopParam : Option String) (env : LoaderEnv) : LoaderResponse :=
  if !truthy shopParam then
    .shopRequired
  else
    match env.adminAuth with
    | .error _ => defaultSettingsResponse
    | .ok _ =>
      match (ensureRfqSettingsType env.ensureEnv).1 with
      | .error _ => defaultSettingsResponse
      | .ok _ =>
        match env.settingsNode with
        | .error _ => defaultSettingsResponse
        | .ok node =>
          let fields := node.getD []
          .settings (getValue fields "phone_number" defaultPhoneNumber)
            (getValue fields "form_title" defaultFormTitle)
            (getValue fields "form_description" defaultFormDescription)
            (getValue fields "success_message" defaultSuccessMessage)

/-! ### Submission intake action (POST handler of the intake route) -/

/-- The form fields the action reads (`formData.get(...)`, `null` when
absent). -/
structure SubmitForm where
  shop : Option String
  productTitle : Option String
  variantTitle : Option String
  customerName : Option String
  customerEmail : Option String
  customerPhone : Option String
  customerCompany : Option String
  quantity : Option String
  requestDetails : Option String
  deriving DecidableEq, Repr

/-- The distinct responses of the action. -/
inductive ActionResponse
  /-- 400 `{error: "Missing required fields"}` -/
  | missingFields
  /-- 400 `{error: "Invalid email format"}` -/
  | invalidEmail
  /-- 429 `{error: "Too many requests. Please try again later."}` -/
  | rateLimited
  /-- 500 `{error: "Failed to save submission"}` -/
  | saveFailed
  /-- 500 `{error: "Failed to process submission"}` (catch-all) -/
  | internalError
  /-- 200 `{success: true, message}` -/
  | success (message : String)
  deriving DecidableEq, Repr

/-- The remote calls the action can issue, in order. -/
inductive RemoteCall
  | adminAuth
  | provision (c : ProvisionCall)
  | createSubmission
  | getSettings
  | sendEmail (recipient : String)
  deriving DecidableEq, Repr

/-- Parsed response of the `metaobjectCreate` submission mutation. -/
structure SubmissionCreateData where
  userErrors : List UserError
  metaobjectId : String
  deriving DecidableEq, Repr

/-- Remote outcomes seen by one action run. -/
structure ActionEnv where
  adminAuth : Remote Unit
  ensureEnv : MetaobjectEnsureEnv
  createResult : Remote SubmissionCreateData
  settingsNode : Remote (Option (List SettingsField))
  senderOutcome : SenderOutcome
  deriving DecidableEq, Repr

/-- The process-global mutable state of the intake route: the cleanup counter
and the rate-limit map. -/
structure RateState where
  counter : Nat
  map : RateLimitMap
  deriving DecidableEq, Repr

/-- `customerEmail` as the string the action works with after the truthiness
check. -/
def formEmail (form : SubmitForm) : String :=
  form.customerEmail.getD ""

/-- ASCII lowercasing of one character (`A`-`Z` to `a`-`z`). -/
def lowerChar (c : Char) : Char :=
  if 65 ≤ c.toNat ∧ c.toNat ≤ 90 then Char.ofNat (c.toNat + 32) else c

/-- `customerEmail.toLowerCase()` as used to normalize the rate-limit key
(per-character lowercasing; emails are ASCII here). -/
def jsToLowerCase (s : String) : String :=
  ⟨s.data.map lowerChar⟩

/-- The success message the action answers with: the settings node's
`success_message` field, or the default. -/
def actionSuccessMessage (env : ActionEnv) : String :=
  match env.settingsNode with
  | .ok node => getValue (node.getD []) "success_message" defaultSuccessMessage
  | .error _ => defaultSuccessMessage

/--
The POST handler, straight-line translation of the source:
required-field check, email regex check, `cleanupRateLimitMap()` then
`checkRateLimit(customerEmail.toLowerCase())`, `unauthenticated.admin`,
`ensureRfqSubmissionType`, the `metaobjectCreate` persist (500 on
`userErrors`), the settings query, the fire-and-forget notification send
(result ignored) and the success response; any throw is caught and answered
with the 500 catch-all.  Returns the response, the trace of remote calls
and the updated rate-limit state. -/
def action (now : Nat) (form : SubmitForm) (env : ActionEnv) (st : RateState) :
    ActionResponse × List RemoteCall × RateState :=
  if !truthy form.shop || !truthy form.customerName || !truthy form.customerEmail then
    (.missingFields, [], st)
  else if !emailRegexTest (formEmail form) then
    (.invalidEmail, [], st)
  else
    let cleaned := cleanupRateLimitMap now st.counter st.map
    let checked := checkRateLimit now (jsToLowerCase (formEmail form)) cleaned.2
    let st' : RateState := ⟨cleaned.1, checked.2⟩
    if !checked.1 then
      (.rateLimited, [], st')
    else
      match env.adminAuth with
      | .error _ => (.internalError, [.adminAuth], st')
      | .ok _ =>
        let ensured := ensureRfqSubmissionType env.ensureEnv
        let calls₀ := RemoteCall.adminAuth :: ensured.2.map RemoteCall.provision
        match ensured.1 with
        | .error _ => (.internalError, calls₀, st')
        | .ok _ =>
          match env.createResult with
          | .error _ => (.internalError, calls₀ ++ [.createSubmission], st')
          | .ok created =>
            if created.userErrors.length > 0 then
              (.saveFailed, calls₀ ++ [.createSubmission], st')
            else
              match env.settingsNode with
              | .error _ =>
                (.internalError, calls₀ ++ [.createSubmission, .getSettings], st')
              | .ok node =>
                let fields := node.getD []
                let notificationEmail := findFieldValue fields "notification_email"
                let successMessage := getValue fields "success_message" defaultSuccessMessage
                let calls₁ := calls₀ ++ [.createSubmission, .getSettings]
                if truthy notificationEmail then
                  let _ := sendQuoteNotification env.senderOutcome
                  (.success successMessage,
                    calls₁ ++ [.sendEmail (notificationEmail.getD "")], st')
                else
                  (.success successMessage, calls₁, st')

end RFQ
namespace RFQ

/-! ### Concrete fixtures used by witnesses and counterexamples -/

/-- A well-formed submission form. -/
def sampleForm : SubmitForm :=
  ⟨some "test.myshopify.com", none, none, some "Jane Doe", some "jane@example.com",
    none, none, none, some "Need pricing for 500 units"⟩

/-- An action environment in which every remote call succeeds and no settings
record exists. -/
def sampleActionEnv : ActionEnv :=
  { adminAuth := .ok ()
  , ensureEnv := metaobjectWorldEnv true
  , createResult := .ok ⟨[], "gid://metaobject/1"⟩
  , settingsNode := .ok none
  , senderOutcome := .sent }

/-- C5: a submission with `shop`, `customerName` or `customerEmail` absent or
empty is answered 400 `missingFields`, with no remote call issued (so no
remote record is created) and the rate-limit state untouched; an absent
`requestDetails` alone never triggers this failure. -/
theorem missing_required_fields_400_no_remote_calls
    (now : Nat) (form : SubmitForm) (env : ActionEnv) (st : RateState) :
    ((truthy form.shop = false ∨ truthy form.customerName = false ∨
        truthy form.customerEmail = false) →
      action now form env st = (.missingFields, [], st))
    ∧ (truthy form.shop = true → truthy form.customerName = true →
        truthy form.customerEmail = true →
      (action now form env st).1 ≠ .missingFields) := by
  constructor
  · rintro (h | h | h) <;> simp [action, h]
  · intro h1 h2 h3
    unfold action
    rw [if_neg (by simp [h1, h2, h3])]
    by_cases he : emailRegexTest (formEmail form)
    · rw [if_neg (by simp [he])]
      dsimp only
      repeat' split
      all_goals simp
    · simp [he]

end RFQ
namespace RFQ

/-! ### Case lemmas for `checkRateLimit` -/

theorem checkRateLimit_no_record (now : Nat) (email : String) (m : RateLimitMap)
    (hg : mapGet m email = none) :
    checkRateLimit now email m =
      (true, mapSet m email ⟨1, now + RATE_LIMIT_WINDOW_MS⟩) := by
  simp [checkRateLimit, hg]

theorem checkRateLimit_expired (now : Nat) (email : String) (m : RateLimitMap)
    (r : RateLimitRecord) (hg : mapGet m email = some r)
    (hexp : now > r.resetTime) :
    checkRateLimit now email m =
      (true, mapSet m email ⟨1, now + RATE_LIMIT_WINDOW_MS⟩) := by
  simp [checkRateLimit, hg, hexp]

theorem checkRateLimit_blocked (now : Nat) (email : String) (m : RateLimitMap)
    (r : RateLimitRecord) (hg : mapGet m email = some r)
    (hexp : ¬ now > r.resetTime) (hmax : r.count ≥ RATE_LIMIT_MAX) :
    checkRateLimit now email m = (false, m) := by
  simp [checkRateLimit, hg, hexp, hmax]

theorem checkRateLimit_increment (now : Nat) (email : String) (m : RateLimitMap)
    (r : RateLimitRecord) (hg : mapGet m email = some r)
    (hexp : ¬ now > r.resetTime) (hmax : ¬ r.count ≥ RATE_LIMIT_MAX) :
    checkRateLimit now email m =
      (true, mapSet m email ⟨r.count + 1, r.resetTime⟩) := by
  simp [checkRateLimit, hg, hexp, hmax]

/-- C7: when the stored window of an email has elapsed (`now` past the
record's `resetTime`), the next `checkRateLimit` call allows the request and
replaces the record with a fresh window of count 1 — whatever the previous
count was, including a record blocked at the maximum. -/
theorem elapsed_window_resets_to_fresh_count
    (now : Nat) (email : String) (m : RateLimitMap) (r : RateLimitRecord)
    (hg : mapGet m email = some r) (hexp : now > r.resetTime) :
    checkRateLimit now email m =
      (true, mapSet m email ⟨1, now + RATE_LIMIT_WINDOW_MS⟩)
    ∧ mapGet (checkRateLimit now email m).2 email =
      some ⟨1, now + RATE_LIMIT_WINDOW_MS⟩ := by
  have h1 := checkRateLimit_expired now email m r hg hexp
  refine ⟨h1, ?_⟩
  rw [h1]
  exact mapGet_mapSet_self m email _

/-- C7 witness: an email blocked at the maximum count whose window has
elapsed is allowed again with a fresh count of 1. -/
theorem elapsed_window_resets_witness :
    checkRateLimit 6 "jane@example.com" [("jane@example.com", ⟨50, 5⟩)] =
      (true, mapSet [("jane@example.com", ⟨50, 5⟩)] "jane@example.com"
        ⟨1, 6 + RATE_LIMIT_WINDOW_MS⟩)
    ∧ mapGet (checkRateLimit 6 "jane@example.com"
        [("jane@example.com", ⟨50, 5⟩)]).2 "jane@example.com" =
      some ⟨1, 6 + RATE_LIMIT_WINDOW_MS⟩ :=
  elapsed_window_resets_to_fresh_count 6 "jane@example.com"
    [("jane@example.com", ⟨50, 5⟩)] ⟨50, 5⟩ (by decide) (by decide)

/-- Invariant of the rate-limit map: every stored record's count is at most
`RATE_LIMIT_MAX`. -/
def rateLimitInv (m : RateLimitMap) : Prop :=
  ∀ p ∈ m, p.2.count ≤ RATE_LIMIT_MAX

/-- C9: the count bound is an invariant: `checkRateLimit` preserves it (it
increments only when the count is below the maximum, and a rejection leaves
the map unchanged), and so does the periodic cleanup sweep. -/
theorem rate_limit_count_invariant
    (now : Nat) (email : String) (m : RateLimitMap) (counter : Nat)
    (hm : rateLimitInv m) :
    rateLimitInv (checkRateLimit now email m).2
    ∧ ((checkRateLimit now email m).1 = false → (checkRateLimit now email m).2 = m)
    ∧ rateLimitInv (cleanupRateLimitMap now counter m).2 := by
  refine ⟨?_, ?_, ?_⟩
  · cases hg : mapGet m email with
    | none =>
      rw [checkRateLimit_no_record now email m hg]
      intro p hp
      rcases mem_mapSet _ _ _ _ hp with rfl | hmem
      · simp [RATE_LIMIT_MAX]
      · exact hm p hmem
    | some r =>
      by_cases hexp : now > r.resetTime
      · rw [checkRateLimit_expired now email m r hg hexp]
        intro p hp
        rcases mem_mapSet _ _ _ _ hp with rfl | hmem
        · simp [RATE_LIMIT_MAX]
        · exact hm p hmem
      · by_cases hmax : r.count ≥ RATE_LIMIT_MAX
        · rw [checkRateLimit_blocked now email m r hg hexp hmax]
          exact hm
        · rw [checkRateLimit_increment now email m r hg hexp hmax]
          intro p hp
          rcases mem_mapSet _ _ _ _ hp with rfl | hmem
          · exact Nat.succ_le_of_lt (Nat.lt_of_not_le hmax)
          · exact hm p hmem
  · intro hfalse
    cases hg : mapGet m email with
    | none =>
      rw [checkRateLimit_no_record now email m hg] at hfalse ⊢
      simp at hfalse
    | some r =>
      by_cases hexp : now > r.resetTime
      · rw [checkRateLimit_expired now email m r hg hexp] at hfalse
        simp at hfalse
      · by_cases hmax : r.count ≥ RATE_LIMIT_MAX
        · rw [checkRateLimit_blocked now email m r hg hexp hmax]
        · rw [checkRateLimit_increment now email m r hg hexp hmax] at hfalse
          simp at hfalse
  · unfold cleanupRateLimitMap
    by_cases hc : (counter + 1) % 100 = 0
    · simp only [hc, if_pos]
      intro p hp
      exact hm p (List.mem_of_mem_filter hp)
    · simp only [hc, if_neg, ite_false]
      exact hm

/-- C9 witness: the invariant holds of the map obtained by one allowed call
on the empty map, its rejection-preservation, and a swept map. -/
theorem rate_limit_count_invariant_witness :
    rateLimitInv (checkRateLimit 0 "a@b.c" [("a@b.c", ⟨50, 9⟩)]).2
    ∧ ((checkRateLimit 0 "a@b.c" [("a@b.c", ⟨50, 9⟩)]).1 = false →
        (checkRateLimit 0 "a@b.c" [("a@b.c", ⟨50, 9⟩)]).2 = [("a@b.c", ⟨50, 9⟩)])
    ∧ rateLimitInv (cleanupRateLimitMap 0 99 [("a@b.c", ⟨50, 9⟩)]).2 :=
  rate_limit_count_invariant 0 "a@b.c" [("a@b.c", ⟨50, 9⟩)] 99
    (by intro p hp; rcases List.mem_singleton.mp hp with rfl; simp [RATE_LIMIT_MAX])

end RFQ
namespace RFQ

/-- A loader environment in which every remote call succeeds and no settings
record exists. -/
def sampleLoaderEnv : LoaderEnv :=
  ⟨.ok (), metaobjectWorldEnv true, .ok none⟩

/-- `sampleForm` with the optional `requestDetails` absent. -/
def sampleFormNoDetails : SubmitForm :=
  { sampleForm with requestDetails := none }

/-- C5 witness: a form missing `customerName` is answered 400 with no remote
calls; a complete form with `requestDetails` absent is not answered
`missingFields`. -/
theorem missing_required_fields_witness :
    action 0 { sampleForm with customerName := none } sampleActionEnv ⟨0, []⟩ =
      (.missingFields, [], ⟨0, []⟩)
    ∧ (action 0 sampleFormNoDetails sampleActionEnv ⟨0, []⟩).1 ≠ .missingFields :=
  ⟨(missing_required_fields_400_no_remote_calls 0 _ sampleActionEnv ⟨0, []⟩).1
      (Or.inr (Or.inl (by decide))),
   (missing_required_fields_400_no_remote_calls 0 sampleFormNoDetails
      sampleActionEnv ⟨0, []⟩).2 (by decide) (by decide) (by decide)⟩

/-- C10 counterexample: a request whose `shop` query parameter is present but
empty (`?shop=`) is also answered with the 400 `shopRequired` error, so the
absent parameter is not the only input for which a settings read surfaces an
error to the caller. -/
theorem shop_param_empty_also_errors :
    loader (some "") sampleLoaderEnv = .shopRequired
    ∧ (some "" : Option String) ≠ none := by
  constructor
  · decide
  · decide

/-- C10 amended: the loader surfaces the 400 `shopRequired` error exactly
when the `shop` query parameter is absent or empty; on every other input it
returns a settings response. -/
theorem shop_param_required_iff (p : Option String) (env : LoaderEnv) :
    loader p env = .shopRequired ↔ (p = none ∨ p = some "") := by
  constructor
  · intro h
    match p with
    | none => exact Or.inl rfl
    | some s =>
      by_cases hs : s = ""
      · exact Or.inr (by rw [hs])
      · exfalso
        unfold loader at h
        rw [if_neg (by simp [truthy, hs])] at h
        repeat' split at h
        all_goals simp_all [defaultSettingsResponse]
  · rintro (rfl | rfl) <;> simp [loader, truthy]

end RFQ
namespace RFQ

/-- Environment of a provisioning race: the existence check saw nothing, but
the creation attempt reports a `TAKEN` ("type has already been taken")
conflict in `userErrors`. -/
def takenConflictEnv : MetaobjectEnsureEnv :=
  { checkResult := .ok none
  , createResult := .ok ⟨[⟨"Type has already been taken.", "TAKEN"⟩], false⟩ }

/-- C2 counterexample: on a "type already exists"/"taken" conflict reported
by the creation attempt, the submission-type and settings-type provisioners
do NOT return success — they throw a fatal error — so the claimed behavior
does not hold for each provisioned schema. -/
theorem submission_type_taken_conflict_throws :
    (ensureRfqSubmissionType takenConflictEnv).1 = .error ()
    ∧ (ensureRfqSettingsType takenConflictEnv).1 = .error () := by
  constructor
  · decide
  · decide

/-- C2 amended: only the product metafield flag provisioner treats a `TAKEN`
conflict on create as success; the submission-type and settings-type
provisioners treat any creation `userErrors` — a `TAKEN` conflict included —
as a fatal (thrown) error. -/
theorem taken_conflict_success_only_for_metafields
    (errors : List UserError) (env : MetaobjectEnsureEnv)
    (d : DefinitionCreateData)
    (htaken : errors.any (fun e => e.code = "TAKEN") = true)
    (hcheck : env.checkResult = .ok none)
    (hcreate : env.createResult = .ok d)
    (herrs : d.userErrors ≠ []) :
    (ensureProductMetafieldDefinition ⟨.ok 0, .ok errors⟩).1 = true
    ∧ (ensureRfqSubmissionType env).1 = .error ()
    ∧ (ensureRfqSettingsType env).1 = .error () := by
  have hlen : d.userErrors.length > 0 := List.length_pos.mpr herrs
  refine ⟨?_, ?_, ?_⟩
  · simp [ensureProductMetafieldDefinition, htaken]
  · simp [ensureRfqSubmissionType, hcheck, hcreate, truthy, hlen]
  · simp [ensureRfqSettingsType, hcheck, hcreate, truthy, hlen]

/-- C2 amended witness, at the concrete `TAKEN` conflict. -/
theorem taken_conflict_witness :
    (ensureProductMetafieldDefinition
      ⟨.ok 0, .ok [⟨"Type has already been taken.", "TAKEN"⟩]⟩).1 = true
    ∧ (ensureRfqSubmissionType takenConflictEnv).1 = .error ()
    ∧ (ensureRfqSettingsType takenConflictEnv).1 = .error () :=
  taken_conflict_success_only_for_metafields
    [⟨"Type has already been taken.", "TAKEN"⟩] takenConflictEnv
    ⟨[⟨"Type has already been taken.", "TAKEN"⟩], false⟩
    (by decide) (by decide) (by decide) (by decide)

/-- C3: provisioning is idempotent: whenever the existence check reports a
definition (truthy id), `ensureRfqSubmissionType` and `ensureRfqSettingsType`
return success immediately with the check as their only remote call — no
creation call; in particular, under the remote-platform semantics
`metaobjectWorldEnv`, a first call on an empty world creates, and a second
sequential call (the world now holding the definition) performs no creation
call. -/
theorem ensure_type_idempotent
    (env : MetaobjectEnsureEnv) (id : String)
    (hcheck : env.checkResult = .ok (some id)) (hid : id ≠ "") :
    ensureRfqSubmissionType env = (.ok true, [.queryDefinition])
    ∧ ensureRfqSettingsType env = (.ok true, [.queryDefinition])
    ∧ ensureRfqSubmissionType (metaobjectWorldEnv false) =
        (.ok true, [.queryDefinition, .createDefinition])
    ∧ ensureRfqSubmissionType (metaobjectWorldEnv true) =
        (.ok true, [.queryDefinition])
    ∧ ensureRfqSettingsType (metaobjectWorldEnv true) =
        (.ok true, [.queryDefinition]) := by
  refine ⟨?_, ?_, by decide, by decide, by decide⟩
  · simp [ensureRfqSubmissionType, hcheck, truthy, hid]
  · simp [ensureRfqSettingsType, hcheck, truthy, hid]

/-- C3 witness, at a concrete environment whose check reports an existing
definition. -/
theorem ensure_type_idempotent_witness :
    ensureRfqSubmissionType (metaobjectWorldEnv true) = (.ok true, [.queryDefinition])
    ∧ ensureRfqSettingsType (metaobjectWorldEnv true) = (.ok true, [.queryDefinition])
    ∧ ensureRfqSubmissionType (metaobjectWorldEnv false) =
        (.ok true, [.queryDefinition, .createDefinition])
    ∧ ensureRfqSubmissionType (metaobjectWorldEnv true) = (.ok true, [.queryDefinition])
    ∧ ensureRfqSettingsType (metaobjectWorldEnv true) = (.ok true, [.queryDefinition]) :=
  ensure_type_idempotent (metaobjectWorldEnv true) "gid://metaobject-definition/1"
    (by decide) (by decide)

end RFQ
namespace RFQ

/-- An accepted-shape submission: required fields truthy and the email
passing the format check (with `e` the email value). -/
def acceptedForm (form : SubmitForm) (e : String) : Prop :=
  truthy form.shop = true ∧ truthy form.customerName = true ∧
  form.customerEmail = some e ∧ e ≠ "" ∧ emailRegexTest e = true

/-- All remote calls of the action succeed: auth ok, provisioning ok,
persist without `userErrors`, settings query ok. -/
def remoteSuccess (env : ActionEnv) : Prop :=
  env.adminAuth = .ok () ∧
  (ensureRfqSubmissionType env.ensureEnv).1 = .ok true ∧
  (∃ created, env.createResult = .ok created ∧ created.userErrors = []) ∧
  (∃ node, env.settingsNode = .ok node)

/-- On an accepted-shape form with all remote calls succeeding, the action's
response is decided by `checkRateLimit` alone (success message or 429), and
the new rate state is the cleanup counter plus the checked map. -/
theorem action_accepted (now : Nat) (form : SubmitForm) (e : String)
    (env : ActionEnv) (st : RateState)
    (hf : acceptedForm form e) (he : remoteSuccess env) :
    (action now form env st).1 =
      (if (checkRateLimit now (jsToLowerCase e)
            (cleanupRateLimitMap now st.counter st.map).2).1
        then ActionResponse.success (actionSuccessMessage env)
        else ActionResponse.rateLimited)
    ∧ (action now form env st).2.2 =
      ⟨(cleanupRateLimitMap now st.counter st.map).1,
       (checkRateLimit now (jsToLowerCase e)
          (cleanupRateLimitMap now st.counter st.map).2).2⟩ := by
  obtain ⟨h1, h2, h3, h4, h5⟩ := hf
  obtain ⟨hA, hE, ⟨created, hC, hCu⟩, ⟨node, hN⟩⟩ := he
  have hT : truthy form.customerEmail = true := by
    rw [h3]; simpa [truthy] using h4
  have hfe : formEmail form = e := by simp [formEmail, h3]
  unfold action
  rw [if_neg (by simp [h1, h2, hT])]
  rw [hfe, if_neg (by simp [h5])]
  by_cases hrl : (checkRateLimit now (jsToLowerCase e)
      (cleanupRateLimitMap now st.counter st.map).2).1
  · simp only [hrl, Bool.not_true, Bool.false_eq_true, if_false,
      hA, hE, hC, hN]
    simp [hCu, actionSuccessMessage, hN, apply_ite]
  · simp only [Bool.not_eq_true] at hrl
    simp [hrl]

/-- C4: a failure of the notification email dispatch never changes the HTTP
response: `sendQuoteNotification` reports a sender error or a caught throw
as `false` rather than raising, the action's entire result is independent of
the sender outcome, and a submission that was accepted and durably persisted
is still answered with the configured-or-default success message when the
sender throws. -/
theorem notification_failure_does_not_change_response
    (now : Nat) (form : SubmitForm) (env : ActionEnv) (st : RateState)
    (o : SenderOutcome) (e : String)
    (hf : acceptedForm form e) (he : remoteSuccess env)
    (hallow : (checkRateLimit now (jsToLowerCase e)
        (cleanupRateLimitMap now st.counter st.map).2).1 = true) :
    sendQuoteNotification SenderOutcome.sendError = false
    ∧ sendQuoteNotification SenderOutcome.sendThrew = false
    ∧ action now form { env with senderOutcome := o } st = action now form env st
    ∧ (action now form { env with senderOutcome := .sendThrew } st).1 =
        ActionResponse.success (actionSuccessMessage env) := by
  refine ⟨rfl, rfl, ?_, ?_⟩
  · cases env; rfl
  · have he' : remoteSuccess { env with senderOutcome := .sendThrew } := he
    have h := (action_accepted now form e { env with senderOutcome := .sendThrew }
      st hf he').1
    rw [h, if_pos hallow]
    rfl

/-- C4 witness: with all remote calls succeeding and a throwing sender, the
concrete submission is still answered with the default success message, and
the result equals the one with a successful sender. -/
theorem notification_failure_witness :
    sendQuoteNotification SenderOutcome.sendError = false
    ∧ sendQuoteNotification SenderOutcome.sendThrew = false
    ∧ action 0 sampleForm { sampleActionEnv with senderOutcome := .sendError } ⟨0, []⟩ =
        action 0 sampleForm sampleActionEnv ⟨0, []⟩
    ∧ (action 0 sampleForm { sampleActionEnv with senderOutcome := .sendThrew } ⟨0, []⟩).1 =
        ActionResponse.success (actionSuccessMessage sampleActionEnv) :=
  notification_failure_does_not_change_response 0 sampleForm sampleActionEnv
    ⟨0, []⟩ .sendError "jane@example.com"
    (by refine ⟨by decide, by decide, by decide, by decide, by decide⟩)
    ⟨by decide, by decide, ⟨⟨[], "gid://metaobject/1"⟩, by decide, rfl⟩, ⟨none, by decide⟩⟩
    (by decide)

end RFQ
namespace RFQ

/-- The rate-limit state after `n` sequential intake requests of the same
form, the `i`-th arriving at time `t i`, starting from a fresh process
(cleanup counter 0, empty map). -/
def iterateAction (t : Nat → Nat) (form : SubmitForm) (env : ActionEnv) :
    Nat → RateState
  | 0 => ⟨0, []⟩
  | n + 1 => (action (t n) form env (iterateAction t form env n)).2.2

theorem cleanup_no_sweep (now counter : Nat) (m : RateLimitMap)
    (h : counter + 1 < 100) :
    cleanupRateLimitMap now counter m = (counter + 1, m) := by
  unfold cleanupRateLimitMap
  rw [if_neg]
  rw [Nat.mod_eq_of_lt h]
  exact Nat.succ_ne_zero counter

theorem mapGet_singleton (k : String) (r : RateLimitRecord) :
    mapGet [(k, r)] k = some r := by
  simp [mapGet]

theorem mapSet_singleton (k : String) (r v : RateLimitRecord) :
    mapSet [(k, r)] k v = [(k, v)] := by
  simp [mapSet]

/-- Within one window (every arrival time at most `t 0` plus the window),
after `n ≤ 50` accepted submissions the process state is counter `n` and,
for `n ≥ 1`, a single record of count `n` with reset time `t 0` plus the
window. -/
theorem iterateAction_state (t : Nat → Nat) (form : SubmitForm) (e : String)
    (env : ActionEnv)
    (hf : acceptedForm form e) (he : remoteSuccess env)
    (ht : ∀ i, i ≤ 50 → t i ≤ t 0 + RATE_LIMIT_WINDOW_MS) :
    ∀ n, n ≤ 50 →
      iterateAction t form env n =
        ⟨n, if n = 0 then ([] : RateLimitMap)
            else [(jsToLowerCase e, ⟨n, t 0 + RATE_LIMIT_WINDOW_MS⟩)]⟩ := by
  intro n
  induction n with
  | zero => intro _; simp [iterateAction]
  | succ n ih =>
    intro hn
    have hn' : n ≤ 50 := Nat.le_of_succ_le hn
    show (action (t n) form env (iterateAction t form env n)).2.2 = _
    rw [(action_accepted (t n) form e env (iterateAction t form env n) hf he).2]
    rw [ih hn']
    dsimp only
    by_cases hn0 : n = 0
    · subst hn0
      rw [if_pos rfl, cleanup_no_sweep _ _ _ (by omega)]
      dsimp only
      rw [checkRateLimit_no_record _ _ _ (by simp [mapGet])]
      simp [mapSet]
    · rw [if_neg hn0, cleanup_no_sweep _ _ _ (by omega)]
      dsimp only
      rw [checkRateLimit_increment _ _ _ ⟨n, t 0 + RATE_LIMIT_WINDOW_MS⟩
        (mapGet_singleton _ _) (Nat.not_lt.mpr (ht n hn'))
        (by simp only [RATE_LIMIT_MAX]; omega)]
      rw [mapSet_singleton]
      simp [hn0]

/-- C1: for a fixed accepted-shape form (fixed normalized email) whose
submissions all arrive within one window of the first, with every remote
call succeeding: each of the first 50 calls is allowed (`checkRateLimit`
returns true on the map it is given) and answered with the success message,
and the 51st call's `checkRateLimit` returns false and the action answers
429 `rateLimited`. -/
theorem rate_limit_fifty_allowed_then_429
    (t : Nat → Nat) (form : SubmitForm) (env : ActionEnv) (e : String)
    (hf : acceptedForm form e) (he : remoteSuccess env)
    (ht : ∀ i, i ≤ 50 → t i ≤ t 0 + RATE_LIMIT_WINDOW_MS) :
    (∀ n, 1 ≤ n → n ≤ 50 →
      (checkRateLimit (t (n - 1)) (jsToLowerCase e)
        (cleanupRateLimitMap (t (n - 1)) (iterateAction t form env (n - 1)).counter
          (iterateAction t form env (n - 1)).map).2).1 = true
      ∧ (action (t (n - 1)) form env (iterateAction t form env (n - 1))).1 =
          ActionResponse.success (actionSuccessMessage env))
    ∧ (checkRateLimit (t 50) (jsToLowerCase e)
        (cleanupRateLimitMap (t 50) (iterateAction t form env 50).counter
          (iterateAction t form env 50).map).2).1 = false
    ∧ (action (t 50) form env (iterateAction t form env 50)).1 =
        ActionResponse.rateLimited := by
  have hblock :
      (checkRateLimit (t 50) (jsToLowerCase e)
        (cleanupRateLimitMap (t 50) (iterateAction t form env 50).counter
          (iterateAction t form env 50).map).2).1 = false := by
    rw [iterateAction_state t form e env hf he ht 50 (le_refl 50)]
    dsimp only
    rw [if_neg (by omega), cleanup_no_sweep _ _ _ (by omega)]
    dsimp only
    rw [checkRateLimit_blocked _ _ _ ⟨50, t 0 + RATE_LIMIT_WINDOW_MS⟩
      (mapGet_singleton _ _) (Nat.not_lt.mpr (ht 50 (le_refl 50)))
      (by simp [RATE_LIMIT_MAX])]
  refine ⟨?_, hblock, ?_⟩
  · intro n hn1 hn2
    obtain ⟨m, rfl⟩ : ∃ m, n = m + 1 := ⟨n - 1, (Nat.succ_pred_eq_of_pos hn1).symm⟩
    have hm : m ≤ 49 := by omega
    have hallow :
        (checkRateLimit (t (m + 1 - 1)) (jsToLowerCase e)
          (cleanupRateLimitMap (t (m + 1 - 1))
            (iterateAction t form env (m + 1 - 1)).counter
            (iterateAction t form env (m + 1 - 1)).map).2).1 = true := by
      simp only [Nat.add_sub_cancel]
      rw [iterateAction_state t form e env hf he ht m (by omega)]
      dsimp only
      by_cases hm0 : m = 0
      · subst hm0
        rw [if_pos rfl, cleanup_no_sweep _ _ _ (by omega)]
        dsimp only
        rw [checkRateLimit_no_record _ _ _ (by simp [mapGet])]
      · rw [if_neg hm0, cleanup_no_sweep _ _ _ (by omega)]
        dsimp only
        rw [checkRateLimit_increment _ _ _ ⟨m, t 0 + RATE_LIMIT_WINDOW_MS⟩
          (mapGet_singleton _ _) (Nat.not_lt.mpr (ht m (by omega)))
          (by simp only [RATE_LIMIT_MAX]; omega)]
    refine ⟨hallow, ?_⟩
    rw [(action_accepted (t (m + 1 - 1)) form e env
      (iterateAction t form env (m + 1 - 1)) hf he).1]
    rw [if_pos hallow]
  · rw [(action_accepted (t 50) form e env (iterateAction t form env 50) hf he).1]
    rw [if_neg (by rw [hblock]; exact Bool.false_ne_true)]

/-- C1 witness: at time 0 throughout, the 50th concrete submission is
allowed and answered with the success message, and the 51st is rejected
with the 429 response. -/
theorem rate_limit_fifty_witness :
    ((checkRateLimit 0 (jsToLowerCase "jane@example.com")
        (cleanupRateLimitMap 0
          (iterateAction (fun _ => 0) sampleForm sampleActionEnv 49).counter
          (iterateAction (fun _ => 0) sampleForm sampleActionEnv 49).map).2).1 = true
      ∧ (action 0 sampleForm sampleActionEnv
          (iterateAction (fun _ => 0) sampleForm sampleActionEnv 49)).1 =
        ActionResponse.success (actionSuccessMessage sampleActionEnv))
    ∧ (checkRateLimit 0 (jsToLowerCase "jane@example.com")
        (cleanupRateLimitMap 0
          (iterateAction (fun _ => 0) sampleForm sampleActionEnv 50).counter
          (iterateAction (fun _ => 0) sampleForm sampleActionEnv 50).map).2).1 = false
    ∧ (action 0 sampleForm sampleActionEnv
        (iterateAction (fun _ => 0) sampleForm sampleActionEnv 50)).1 =
      ActionResponse.rateLimited := by
  have h := rate_limit_fifty_allowed_then_429 (fun _ => 0) sampleForm
    sampleActionEnv "jane@example.com"
    (by refine ⟨by decide, by decide, by decide, by decide, by decide⟩)
    ⟨by decide, by decide, ⟨⟨[], "gid://metaobject/1"⟩, by decide, rfl⟩, ⟨none, by decide⟩⟩
    (fun i _ => Nat.zero_le _)
  exact ⟨h.1 50 (by decide) (by decide), h.2.1, h.2.2⟩

end RFQ
namespace RFQ

/-- C6 counterexample: `"a@@b.c"` matches the spec's `^\S+@\S+\.\S+$` shape,
yet the intake action rejects it with the 400 invalid-email response — so
the code's check does not accept exactly the spec's shape. -/
theorem email_spec_shape_rejected_cex :
    specEmailShape "a@@b.c" = true
    ∧ emailRegexTest "a@@b.c" = false
    ∧ (action 0 { sampleForm with customerEmail := some "a@@b.c" }
        sampleActionEnv ⟨0, []⟩).1 = .invalidEmail := by
  refine ⟨by decide, by decide, by decide⟩

/-- C6 amended: on a form whose required fields are truthy, the intake
accepts `customerEmail` exactly when it matches the code's
`^[^\s@]+@[^\s@]+\.[^\s@]+$` pattern (whose segments exclude whitespace AND
`@`); every non-matching value — in particular every value not matching the
spec's `^\S+@\S+\.\S+$` shape — is answered 400 invalid-email with no
remote call and an unchanged rate state. -/
theorem email_format_check_matches_code_regex
    (now : Nat) (form : SubmitForm) (env : ActionEnv) (st : RateState)
    (e : String) (hemail : form.customerEmail = some e)
    (h1 : truthy form.shop = true) (h2 : truthy form.customerName = true)
    (h3 : truthy form.customerEmail = true) :
    (emailRegexTest e = false →
      action now form env st = (.invalidEmail, [], st))
    ∧ (emailRegexTest e = true → (action now form env st).1 ≠ .invalidEmail)
    ∧ (specEmailShape e = false →
      action now form env st = (.invalidEmail, [], st)) := by
  have hfe : formEmail form = e := by simp [formEmail, hemail]
  have key : emailRegexTest e = false →
      action now form env st = (.invalidEmail, [], st) := by
    intro hre
    unfold action
    rw [if_neg (by simp [h1, h2, h3]), hfe, if_pos (by simp [hre])]
  refine ⟨key, ?_, ?_⟩
  · intro hre
    unfold action
    rw [if_neg (by simp [h1, h2, h3]), hfe, if_neg (by simp [hre])]
    dsimp only
    repeat' split
    all_goals simp
  · intro hspec
    refine key ?_
    cases hre : emailRegexTest e
    · rfl
    · exact absurd (emailRegexTest_implies_specShape e hre) (by simp [hspec])

/-- C6 amended witness: a value without `@` is rejected 400 with no remote
calls; a well-formed value is not answered invalid-email. -/
theorem email_format_check_witness :
    action 0 { sampleForm with customerEmail := some "plainaddress" }
      sampleActionEnv ⟨0, []⟩ = (.invalidEmail, [], ⟨0, []⟩)
    ∧ (action 0 sampleForm sampleActionEnv ⟨0, []⟩).1 ≠ .invalidEmail :=
  ⟨(email_format_check_matches_code_regex 0 _ sampleActionEnv ⟨0, []⟩
      "plainaddress" rfl (by decide) (by decide) (by decide)).1 (by decide),
   (email_format_check_matches_code_regex 0 sampleForm sampleActionEnv ⟨0, []⟩
      "jane@example.com" rfl (by decide) (by decide) (by decide)).2.1 (by decide)⟩

/-- Some remote step of the settings read failed: auth threw, provisioning
threw, or the settings query threw. -/
def loaderRemoteFailure (env : LoaderEnv) : Prop :=
  env.adminAuth = .error () ∨
  (ensureRfqSettingsType env.ensureEnv).1 = .error () ∨
  env.settingsNode = .error ()

/-- C8: a settings read with a shop never surfaces a failure: the response
is always a settings payload; on any remote failure, and likewise when no
settings record exists, it is the hardcoded defaults verbatim; a stored
field that is missing or empty falls back to its per-field default; and
with a record present each field is served through `getValue`. -/
theorem settings_read_never_errors
    (s : String) (env : LoaderEnv) (hs : s ≠ "") :
    (∃ p t d m, loader (some s) env = .settings p t d m)
    ∧ (loaderRemoteFailure env → loader (some s) env = defaultSettingsResponse)
    ∧ (env.settingsNode = .ok none → loader (some s) env = defaultSettingsResponse)
    ∧ (∀ fields k dflt,
        findFieldValue fields k = none ∨ findFieldValue fields k = some "" →
        getValue fields k dflt = dflt)
    ∧ (∀ fields b, env.adminAuth = .ok () →
        (ensureRfqSettingsType env.ensureEnv).1 = .ok b →
        env.settingsNode = .ok (some fields) →
        loader (some s) env = .settings
          (getValue fields "phone_number" defaultPhoneNumber)
          (getValue fields "form_title" defaultFormTitle)
          (getValue fields "form_description" defaultFormDescription)
          (getValue fields "success_message" defaultSuccessMessage)) := by
  refine ⟨?_, ?_, ?_, ?_, ?_⟩
  · unfold loader
    rw [if_neg (by simp [truthy, hs])]
    repeat' split
    all_goals exact ⟨_, _, _, _, rfl⟩
  · rintro (hA | hE | hN)
    · simp [loader, truthy, hs, hA]
    · unfold loader
      rw [if_neg (by simp [truthy, hs])]
      cases hA : env.adminAuth with
      | error e => rfl
      | ok u => rw [hE]
    · unfold loader
      rw [if_neg (by simp [truthy, hs])]
      cases hA : env.adminAuth with
      | error e => rfl
      | ok u =>
        cases hE : (ensureRfqSettingsType env.ensureEnv).1 with
        | error e => rfl
        | ok b => rw [hN]
  · intro hN
    unfold loader
    rw [if_neg (by simp [truthy, hs])]
    cases hA : env.adminAuth with
    | error e => rfl
    | ok u =>
      cases hE : (ensureRfqSettingsType env.ensureEnv).1 with
      | error e => rfl
      | ok b =>
        rw [hN]
        rfl
  · intro fields k dflt h
    rcases h with h | h <;> simp [getValue, h]
  · intro fields b hA hE hN
    simp [loader, truthy, hs, hA, hE, hN]

/-- C8 witness: a settings read for a concrete shop with no settings record
returns the defaults verbatim (and is a settings payload, not an error). -/
theorem settings_read_witness :
    (∃ p t d m, loader (some "test.myshopify.com") sampleLoaderEnv =
      .settings p t d m)
    ∧ loader (some "test.myshopify.com") sampleLoaderEnv =
        defaultSettingsResponse := by
  have h := settings_read_never_errors "test.myshopify.com" sampleLoaderEnv
    (by decide)
  exact ⟨h.1, h.2.2.1 rfl⟩

end RFQ
